import Mathlib

/-!
Verification of the water-treatment simulation core
(`water_treatment_simulation.py`): water chemistry under coagulant dosing,
the rapid-mixing stage, the flocculation population-balance right-hand side
with its coagulation and breakage kernels, and the sedimentation stage.

Conventions of the embedding:
* Python floating-point scalars are modelled as exact numbers: the pure
  chemistry and distribution bookkeeping (which uses only field operations,
  `max` and `min`) is embedded over `ℚ` so that concrete runs are decidable;
  the kernel and sedimentation formulas involve `sqrt` and real powers and
  are embedded over `ℝ`.
* Where the Python code performs a division whose divisor can be zero
  (numpy would produce `nan`/`inf` there, with warnings suppressed), the
  embedding makes the definedness explicit with `Option`: `none` models the
  non-numeric result.  Divisions whose divisors are nonzero constants are
  plain field divisions.
* `scipy.integrate.solve_ivp` is an external library call; it is abstracted
  as a function returning a result record with a `success` flag and the
  final state column, exactly the two fields the source reads (or fails to
  read).
-/

namespace WaterSim

/-- Embedding of `np.trapz(ys, xs)`: trapezoidal integral of samples `ys` against
abscissae `xs`, `Σ (x_{i+1} - x_i) * (y_i + y_{i+1}) / 2`. -/
def trapz {α : Type} [DivisionRing α] : List α → List α → α
  | y1 :: y2 :: ys, x1 :: x2 :: xs =>
      (x2 - x1) * (y1 + y2) / 2 + trapz (y2 :: ys) (x2 :: xs)
  | _, _ => 0

/-- The chemistry state of `WaterProperties` touched by `add_coagulant`:
`pH` and `alkalinity` (mg/L CaCO3).  Temperature-derived density and
viscosity are separate parameters where needed. -/
structure WaterChem where
  pH : ℚ
  alkalinity : ℚ
  deriving DecidableEq, Repr

/-- Embedding of `WaterProperties.add_coagulant` (the simplified-model branch, which is
the one the repository runs without the optional pyEQL dependency): convert
the Al2(SO4)3 dose to mol/L, consume 6 mol CaCO3-equivalent alkalinity per
mol, floor alkalinity at 0, and, only when the consumed alkalinity is
positive, shift the pH by `-(consumed/100)*0.15` clamped to [4, 9].
Returns the mutated state together with the returned pair
`(self.pH, self.alkalinity)`. -/
def add_coagulant (w : WaterChem) (al2so4_conc : ℚ) : WaterChem × ℚ × ℚ :=
  let molar_conc := al2so4_conc / 342.15
  let alkalinity_consumed := molar_conc * 6 * 100.09 * 1000
  let new_alkalinity := max 0 (w.alkalinity - alkalinity_consumed)
  let new_pH :=
    if 0 < alkalinity_consumed then
      max 4.0 (min 9.0 (w.pH + -(alkalinity_consumed / 100.0) * 0.15))
    else w.pH
  (⟨new_pH, new_alkalinity⟩, new_pH, new_alkalinity)

/-- The charge-neutralization efficiency factor of `RapidMixing.process`:
`min(1.0, coagulant_dose / 0.05)`. -/
def charge_neutralization (coagulant_dose : ℚ) : ℚ :=
  min 1.0 (coagulant_dose / 0.05)

/-- Embedding of `ParticleDistribution.normalize`: rescale the concentrations so that
their trapezoidal integral over `sizes` becomes `total_concentration`
(elementwise `c * total / current_total`). -/
def normalize (concs sizes : List ℚ) (total_concentration : ℚ) : List ℚ :=
  let current_total := trapz concs sizes
  concs.map (fun c => c * total_concentration / current_total)

/-- Embedding of `RapidMixing.process`: apply the coagulant to the chemistry state,
scale every bin center by `1 + 0.1 * charge_neutralization`, keep the
concentrations and renormalize them (over the scaled sizes) to the input
distribution's trapezoidal total mass.  Returns the new chemistry state,
the new sizes and the new concentrations. -/
def rapid_mix_process (w : WaterChem) (sizes concs : List ℚ)
    (coagulant_dose : ℚ) : WaterChem × List ℚ × List ℚ :=
  let w' := (add_coagulant w coagulant_dose).1
  let factor := charge_neutralization coagulant_dose
  let new_sizes := sizes.map (fun s => s * (1 + 0.1 * factor))
  let new_concs := normalize concs new_sizes (trapz concs sizes)
  (w', new_sizes, new_concs)

/-- State of `Flocculation.__init__` derived quantities.  `chamber_volume` and
`chamber_time` divide by `chambers`; with `chambers = 0` the Python call
dies with an uncaught `ZeroDivisionError`, modelled as `none`.  Any nonzero
(including negative) chamber count is accepted. -/
structure FlocParams where
  chambers : ℤ
  total_volume : ℚ
  G_avg : ℚ
  total_time : ℚ
  chamber_volume : ℚ
  chamber_time : ℚ
  deriving DecidableEq, Repr

/-- Embedding of `Flocculation.__init__`. -/
def flocculation_init (chambers : ℤ) (total_volume G_avg total_time : ℚ) :
    Option FlocParams :=
  if chambers = 0 then none
  else some ⟨chambers, total_volume, G_avg, total_time,
    total_volume / (chambers : ℚ), total_time / (chambers : ℚ)⟩

/-- Embedding of `Flocculation.coagulation_kernel`: Smoluchowski Brownian term plus
Saffman-Turner turbulent term, with `kB = 1.38e-23`, `T = temperature +
273.15`, fixed water density `rho = 1000`, energy dissipation
`epsilon = G^2 * viscosity / rho`, kinematic viscosity `nu = viscosity /
rho` and collision efficiency `alpha = 0.2`. -/
noncomputable def coagulation_kernel (di dj G temperature viscosity : ℝ) : ℝ :=
  let kB : ℝ := 1.38e-23
  let T := temperature + 273.15
  let rho : ℝ := 1000
  let K_brown := (2 * kB * T) / (3 * viscosity) * ((di + dj) ^ 2) / (di * dj)
  let epsilon := (G ^ 2 * viscosity) / rho
  let nu := viscosity / rho
  let shear_rate := Real.sqrt (epsilon / nu)
  let alpha : ℝ := 0.2
  let K_turb := alpha * shear_rate * (di + dj) ^ 3
  K_brown + K_turb

/-- Embedding of `Flocculation.breakage_kernel`: turbulent-stress breakage rate
`C_break * sqrt(epsilon/nu) * d^(2/3)` with `C_break = 1e-5`,
`epsilon = G^2 * viscosity / density_water`, `nu = viscosity /
density_water`.  The `density_floc` argument is accepted and unused,
exactly as in the source. -/
noncomputable def breakage_kernel (d G density_floc viscosity density_water : ℝ) : ℝ :=
  let epsilon := (G ^ 2 * viscosity) / density_water
  let nu := viscosity / density_water
  let C_break : ℝ := 1e-5
  let shear_rate := Real.sqrt (epsilon / nu)
  C_break * shear_rate * d ^ ((2 : ℝ) / 3)

/-- The per-bin right-hand side of `Flocculation.population_balance`,
parametrized by the pairwise aggregation kernel `K` and the breakage
kernel `S` (both already applied to the hydraulic/chemistry parameters):
`dndt i = birth - death_agg - death_break + birth_break` where sizes
(stored in μm) are converted to meters by the factor `1e-6` at every
kernel call and the fragment distribution is `b_ij = 2/(j - i + 1)`. -/
noncomputable def pb_dndt (K : ℝ → ℝ → ℝ) (S : ℝ → ℝ) (sizes n : ℕ → ℝ)
    (N i : ℕ) : ℝ :=
  let birth := ∑ j in Finset.range i,
    0.5 * K (sizes j * 1e-6) (sizes (i - j - 1) * 1e-6) * n j * n (i - j - 1)
  let death_agg := ∑ j in Finset.range N,
    K (sizes i * 1e-6) (sizes j * 1e-6) * n i * n j
  let death_break := S (sizes i * 1e-6) * n i
  let birth_break := ∑ j in Finset.Ico (i + 1) N,
    2 / ((j : ℝ) - (i : ℝ) + 1) * S (sizes j * 1e-6) * n j
  birth - death_agg - death_break + birth_break

/-- The full right-hand side of `Flocculation.population_balance`, with the
kernels instantiated as in the source (`breakage_kernel` called with
`density_floc = 1200`, the water viscosity and the water density). -/
noncomputable def population_balance (G temperature viscosity density : ℝ)
    (sizes n : ℕ → ℝ) (N i : ℕ) : ℝ :=
  pb_dndt (fun di dj => coagulation_kernel di dj G temperature viscosity)
    (fun d => breakage_kernel d G 1200 viscosity density) sizes n N i

/-- The instantaneous rate of change of the total trapezoidal mass under
the population-balance right-hand side: `trapz` of the vector of `pb_dndt`
values against the size bins. -/
noncomputable def pb_mass_rate (K : ℝ → ℝ → ℝ) (S : ℝ → ℝ)
    (sizes n : ℕ → ℝ) (N : ℕ) : ℝ :=
  trapz ((List.range N).map (pb_dndt K S sizes n N)) ((List.range N).map sizes)

/-- The result record of `scipy.integrate.solve_ivp` as consumed by
`Flocculation.process`: the convergence flag `sol.success` and the last
state column `sol.y[:, -1]` (on failure scipy returns the last state it
managed to compute). -/
structure IvpResult where
  success : Bool
  y_final : List ℝ

/-- The chamber loop of `Flocculation.process`: for each of the `chambers`
chambers in sequence, hand the current concentration vector to the ODE
solver and replace it by the final column `sol.y[:, -1]` of whatever the
solver returned.  As in the source, the result record's `success` flag is
never inspected. -/
def floc_process (solver : List ℝ → IvpResult) : ℕ → List ℝ → List ℝ
  | 0, n => n
  | k + 1, n => floc_process solver k ((solver n).y_final)

/-- Embedding of `Sedimentation.settling_velocity`: Stokes settling for the bin diameter
(μm, converted to meters), switched to the Schiller-Naumann-corrected form
when the Reynolds number exceeds 0.1. -/
noncomputable def settling_velocity (diameter density_particle density_water viscosity : ℝ) : ℝ :=
  let d := diameter * 1e-6
  let rho_p := density_particle
  let rho_w := density_water
  let mu := viscosity
  let g : ℝ := 9.81
  let vs_stokes := g * d ^ 2 * (rho_p - rho_w) / (18 * mu)
  let Re := rho_w * vs_stokes * d / mu
  if 0.1 < Re then
    let Cd := 24 / Re + 3 / Real.sqrt Re + 0.34
    Real.sqrt (4 * g * d * (rho_p - rho_w) / (3 * Cd * rho_w))
  else vs_stokes

/-- Embedding of `Sedimentation.hindered_settling` (Richardson-Zaki): volumetric solids
fraction `phi = (concentration/1e6)/density_particle` clamped to [0, 0.6],
then `vs0 * (1 - phi) ^ n`. -/
noncomputable def hindered_settling (vs0 concentration density_particle n : ℝ) : ℝ :=
  let conc_kg_m3 := concentration / 1e6
  let phi0 := conc_kg_m3 / density_particle
  let phi := min 0.6 (max 0.0 phi0)
  vs0 * (1 - phi) ^ n

/-- The dictionary returned by `Sedimentation.process`.  The source
computes `removal_efficiency` as `(initial - final)/initial * 100` with no
guard; when `initial = 0` that float division is `0.0/0.0 = nan` in numpy
(warnings suppressed), modelled here as `none`. -/
structure SedResult where
  effluent_concentration : ℝ
  removal_efficiency : Option ℝ
  size_distribution : List ℝ
  settling_velocities : List ℝ

/-- Embedding of `Sedimentation.process` with the `__init__`-derived residence time
`height / (overflow_rate / 3600)` inlined.  The `area` parameter is stored
by the source constructor and never used in `process`. -/
noncomputable def sed_process (area height overflow_rate : ℝ)
    (density_water viscosity : ℝ) (sizes concs : List ℝ)
    (floc_density : ℝ) : SedResult :=
  let residence_time := height / (overflow_rate / 3600)
  let velocities := sizes.map
    (fun d => settling_velocity d floc_density density_water viscosity)
  let total_conc := trapz concs sizes
  let vs_hindered := velocities.map
    (fun vs => hindered_settling vs total_conc floc_density 4.65)
  let removal := vs_hindered.map (fun v => min 1.0 (v * residence_time / height))
  let effluent_conc := List.zipWith (fun c r => c * (1 - r)) concs removal
  let initial_total := trapz concs sizes
  let final_total := trapz effluent_conc sizes
  let overall_efficiency : Option ℝ :=
    if initial_total = 0 then none
    else some ((initial_total - final_total) / initial_total * 100)
  ⟨final_total, overall_efficiency, effluent_conc, vs_hindered⟩

/-- The spec's turbulent coagulation term, written from the spec's words:
energy dissipation `epsilon = G^2 * viscosity / rho` with `rho = 1000`
fixed, shear rate `sqrt(epsilon/nu)` with `nu = viscosity / rho`, and
collision efficiency 0.2. -/
noncomputable def spec_turbulent_term (di dj G viscosity : ℝ) : ℝ :=
  let epsilon := G ^ 2 * viscosity / 1000
  let nu := viscosity / 1000
  let shearRate := Real.sqrt (epsilon / nu)
  0.2 * shearRate * (di + dj) ^ 3

/-- The coagulation rate exactly as the spec states it, with the spec's
Boltzmann constant `kB = 1.380649e-23`. -/
noncomputable def spec_coagulation_rate (di dj G temperature viscosity : ℝ) : ℝ :=
  2 * 1.380649e-23 * (temperature + 273.15) / (3 * viscosity)
      * (di + dj) ^ 2 / (di * dj)
    + spec_turbulent_term di dj G viscosity

/-- The spec's coagulation-rate formula amended to the Boltzmann constant
the source actually uses, `kB = 1.38e-23`. -/
noncomputable def amended_coagulation_rate (di dj G temperature viscosity : ℝ) : ℝ :=
  2 * 1.38e-23 * (temperature + 273.15) / (3 * viscosity)
      * (di + dj) ^ 2 / (di * dj)
    + spec_turbulent_term di dj G viscosity

/-- C6 counterexample: the code's kernel does not equal the spec's formula,
because the source rounds the Boltzmann constant to `1.38e-23` while the
spec claims `1.380649e-23`.  At `di = dj = 1`, `G = 0`, `temperature = 0`,
`viscosity = 1` the turbulent terms vanish and the Brownian terms differ. -/
theorem C6_counterexample :
    coagulation_kernel 1 1 0 0 1 ≠ spec_coagulation_rate 1 1 0 0 1 := by
  simp only [coagulation_kernel, spec_coagulation_rate, spec_turbulent_term]
  norm_num

/-- C6 (amended): for every `di, dj > 0` and all `G`, `temperature`,
`viscosity`, the code's `coagulation_kernel` is exactly the sum of the
Brownian term `(2*kB*T)/(3*viscosity) * (di+dj)^2/(di*dj)` with
`kB = 1.38e-23` and `T = temperature + 273.15`, and the turbulent term
`0.2 * sqrt(epsilon/nu) * (di+dj)^3` with `epsilon = G^2*viscosity/1000`
and `nu = viscosity/1000`. -/
theorem C6_kernel_formula (di dj G temperature viscosity : ℝ)
    (hdi : 0 < di) (hdj : 0 < dj) :
    coagulation_kernel di dj G temperature viscosity =
      amended_coagulation_rate di dj G temperature viscosity := by
  simp only [coagulation_kernel, amended_coagulation_rate, spec_turbulent_term]

/-- C6 witness: the amended formula, instantiated at a concrete input. -/
theorem C6_witness :
    (0 : ℝ) < 2 ∧ (0 : ℝ) < 3 ∧
      coagulation_kernel 2 3 50 20 0.001 = amended_coagulation_rate 2 3 50 20 0.001 :=
  ⟨by norm_num, by norm_num, C6_kernel_formula 2 3 50 20 0.001 (by norm_num) (by norm_num)⟩

/-- C10: since `epsilon = G^2*viscosity/density` and
`nu = viscosity/density`, the turbulent shear rate `sqrt(epsilon/nu)`
collapses to `G` for every positive viscosity and density (and `G ≥ 0`);
hence the turbulent coagulation term is `0.2*G*(di+dj)^3` and the breakage
rate is `1e-5*G*d^(2/3)`, independent of the viscosity and density
arguments. -/
theorem C10_shear_rate_collapse (di dj d G temperature viscosity
    density_floc density_water : ℝ) (hmu : 0 < viscosity)
    (hrw : 0 < density_water) (hG : 0 ≤ G) :
    Real.sqrt ((G ^ 2 * viscosity / density_water) / (viscosity / density_water)) = G ∧
    coagulation_kernel di dj G temperature viscosity =
      (2 * 1.38e-23 * (temperature + 273.15)) / (3 * viscosity)
          * ((di + dj) ^ 2) / (di * dj) + 0.2 * G * (di + dj) ^ 3 ∧
    breakage_kernel d G density_floc viscosity density_water =
      1e-5 * G * d ^ ((2 : ℝ) / 3) := by
  have hsq : ∀ rho : ℝ, rho ≠ 0 →
      (G ^ 2 * viscosity / rho) / (viscosity / rho) = G ^ 2 := by
    intro rho hrho
    field_simp
  have hmu' : viscosity ≠ 0 := ne_of_gt hmu
  have hrw' : density_water ≠ 0 := ne_of_gt hrw
  refine ⟨?_, ?_, ?_⟩
  · rw [hsq density_water hrw', Real.sqrt_sq hG]
  · simp only [coagulation_kernel]
    rw [hsq 1000 (by norm_num), Real.sqrt_sq hG]
  · simp only [breakage_kernel]
    rw [hsq density_water hrw', Real.sqrt_sq hG]

/-- C10 witness: the cancellation at a concrete input. -/
theorem C10_witness :
    (0 : ℝ) < 0.001 ∧ (0 : ℝ) < 998 ∧ (0 : ℝ) ≤ 50 ∧
      (Real.sqrt (((50 : ℝ) ^ 2 * 0.001 / 998) / (0.001 / 998)) = 50 ∧
       coagulation_kernel 2 3 50 20 0.001 =
         (2 * 1.38e-23 * ((20 : ℝ) + 273.15)) / (3 * 0.001)
             * (((2 : ℝ) + 3) ^ 2) / (2 * 3) + 0.2 * 50 * ((2 : ℝ) + 3) ^ 3 ∧
       breakage_kernel 4 50 1200 0.001 998 = 1e-5 * 50 * (4 : ℝ) ^ ((2 : ℝ) / 3)) :=
  ⟨by norm_num, by norm_num, by norm_num,
    C10_shear_rate_collapse 2 3 4 50 20 0.001 1200 998
      (by norm_num) (by norm_num) (by norm_num)⟩

theorem trapz_nil_left {α : Type} [DivisionRing α] (xs : List α) :
    trapz ([] : List α) xs = 0 := by
  cases xs <;> simp [trapz]

theorem trapz_single_left {α : Type} [DivisionRing α] (y : α) (xs : List α) :
    trapz [y] xs = 0 := by
  cases xs with
  | nil => simp [trapz]
  | cons x xs' => cases xs' <;> simp [trapz]

theorem trapz_map_mul {α : Type} [Field α] (a : α) :
    ∀ (ys xs : List α), trapz (ys.map (fun y => y * a)) xs = trapz ys xs * a
  | y1 :: y2 :: ys, x1 :: x2 :: xs => by
    have ih := trapz_map_mul a (y2 :: ys) (x2 :: xs)
    simp only [List.map_cons] at ih ⊢
    simp only [trapz]
    rw [ih]
    ring
  | [], xs => by rw [List.map_nil, trapz_nil_left, zero_mul]
  | [y], xs => by
    rw [List.map_cons, List.map_nil, trapz_single_left, trapz_single_left, zero_mul]
  | y1 :: y2 :: ys, [] => by simp [trapz]
  | y1 :: y2 :: ys, [x] => by simp [trapz]

theorem trapz_map_mul_x {α : Type} [Field α] (k : α) :
    ∀ (ys xs : List α), trapz ys (xs.map (fun x => x * k)) = trapz ys xs * k
  | y1 :: y2 :: ys, x1 :: x2 :: xs => by
    have ih := trapz_map_mul_x k (y2 :: ys) (x2 :: xs)
    simp only [List.map_cons] at ih ⊢
    simp only [trapz]
    rw [ih]
    ring
  | [], xs => by rw [trapz_nil_left, trapz_nil_left, zero_mul]
  | [y], xs => by rw [trapz_single_left, trapz_single_left, zero_mul]
  | y1 :: y2 :: ys, [] => by simp [trapz]
  | y1 :: y2 :: ys, [x] => by simp [trapz]

theorem trapz_zero_left {α : Type} [DivisionRing α] :
    ∀ (ys xs : List α), (∀ y ∈ ys, y = 0) → trapz ys xs = 0
  | y1 :: y2 :: ys, x1 :: x2 :: xs => by
    intro h
    have h1 : y1 = 0 := h y1 (by simp)
    have h2 : y2 = 0 := h y2 (by simp)
    have ih := trapz_zero_left (y2 :: ys) (x2 :: xs) (by
      intro y hy
      exact h y (List.mem_cons_of_mem _ hy))
    subst h1
    subst h2
    simp only [trapz, ih]
    simp
  | [], xs => fun _ => trapz_nil_left xs
  | [y], xs => fun _ => trapz_single_left y xs
  | y1 :: y2 :: ys, [] => by intro h; simp [trapz]
  | y1 :: y2 :: ys, [x] => by intro h; simp [trapz]

/-- Branch evaluation of `add_coagulant` when the consumed alkalinity is
positive: both the floor on alkalinity and the pH clamp are applied. -/
theorem add_coagulant_pos_eval (w : WaterChem) (d : ℚ)
    (h : 0 < d / 342.15 * 6 * 100.09 * 1000) :
    (add_coagulant w d).1 =
      ⟨max 4.0 (min 9.0 (w.pH + -(d / 342.15 * 6 * 100.09 * 1000 / 100.0) * 0.15)),
       max 0 (w.alkalinity - d / 342.15 * 6 * 100.09 * 1000)⟩ := by
  simp only [add_coagulant, if_pos h]

/-- Branch evaluation of `add_coagulant` when the consumed alkalinity is
not positive (dose ≤ 0): the pH is left untouched. -/
theorem add_coagulant_nonpos_eval (w : WaterChem) (d : ℚ)
    (h : ¬ 0 < d / 342.15 * 6 * 100.09 * 1000) :
    (add_coagulant w d).1 =
      ⟨w.pH, max 0 (w.alkalinity - d / 342.15 * 6 * 100.09 * 1000)⟩ := by
  simp only [add_coagulant, if_neg h]

/-- C5 counterexample: a negative coagulant dose is not rejected — the call
is processed by the normal update.  At dose `-342.15` g/L on the state
`(pH 7, alkalinity 100)` the "consumed" alkalinity is `-600540`, so the
stored alkalinity becomes `max 0 (100 + 600540) = 600640` (it increases)
and the pH branch is skipped; the resulting state differs from the input
state, refuting "rejected with a validation error, fatal to that call". -/
theorem C5_counterexample :
    (add_coagulant ⟨7, 100⟩ (-342.15)).1 = ⟨7, 600640⟩ ∧
      ((⟨7, 600640⟩ : WaterChem) ≠ ⟨7, 100⟩) := by
  constructor
  · rw [add_coagulant_nonpos_eval ⟨7, 100⟩ (-342.15) (by norm_num)]
    have h1 : ((⟨7, 100⟩ : WaterChem)).alkalinity - (-342.15) / 342.15 * 6 * 100.09 * 1000
        = 600640 := by norm_num
    rw [h1, max_eq_right (by norm_num : (0 : ℚ) ≤ 600640)]
  · intro h
    have := congrArg WaterChem.alkalinity h
    norm_num at this

/-- C5 (amended): there is no input validation at stage entry.
`add_coagulant` accepts every dose: a negative dose is processed by the
same update, leaving the pH unchanged and *increasing* the alkalinity by
the negated consumption (for a state satisfying the data-model invariant
`alkalinity ≥ 0`).  `Flocculation.__init__` fails only by the uncaught
`ZeroDivisionError` at `chambers = 0`; every nonzero chamber count,
negative ones included, is accepted. -/
theorem C5_no_validation (w : WaterChem) (d : ℚ) (hd : d < 0)
    (halk : 0 ≤ w.alkalinity) :
    (add_coagulant w d).1.pH = w.pH ∧
    (add_coagulant w d).1.alkalinity
        = w.alkalinity + -(d / 342.15 * 6 * 100.09 * 1000) ∧
    (∀ (c : ℤ) (tv g tt : ℚ), (flocculation_init c tv g tt).isSome ↔ c ≠ 0) := by
  have key : d / 342.15 * 6 * 100.09 * 1000 = d * (600540 / 342.15) := by ring
  have hneg : d / 342.15 * 6 * 100.09 * 1000 < 0 := by
    rw [key]
    exact mul_neg_of_neg_of_pos hd (by norm_num)
  rw [add_coagulant_nonpos_eval w d (by linarith)]
  refine ⟨rfl, ?_, ?_⟩
  · show max 0 (w.alkalinity - d / 342.15 * 6 * 100.09 * 1000) = _
    rw [max_eq_right (by linarith)]
    ring
  · intro c tv g tt
    by_cases hc : c = 0 <;> simp [flocculation_init, hc]

/-- C5 witness. -/
theorem C5_witness :
    (-1 : ℚ) < 0 ∧ (0 : ℚ) ≤ 100 ∧
      ((add_coagulant ⟨7, 100⟩ (-1)).1.pH = 7 ∧
       (add_coagulant ⟨7, 100⟩ (-1)).1.alkalinity
           = 100 + -((-1) / 342.15 * 6 * 100.09 * 1000) ∧
       (∀ (c : ℤ) (tv g tt : ℚ), (flocculation_init c tv g tt).isSome ↔ c ≠ 0)) :=
  ⟨by norm_num, by norm_num, C5_no_validation ⟨7, 100⟩ (-1) (by norm_num) (by norm_num)⟩

/-- C7 counterexample: at dose 0 the pH update is skipped entirely (the
code only clamps when the consumed alkalinity is positive), so for an
initial pH of 3 the stored pH stays 3, while the claimed postcondition
`clamp(pH - (consumed/100)*0.15, 4, 9)` evaluates to 4. -/
theorem C7_counterexample :
    (add_coagulant ⟨3, 100⟩ 0).1.pH
      ≠ max 4.0 (min 9.0 ((3 : ℚ) + -(0 / 342.15 * 6 * 100.09 * 1000 / 100) * 0.15)) := by
  rw [add_coagulant_nonpos_eval ⟨3, 100⟩ 0 (by norm_num)]
  have h1 : (3 : ℚ) + -(0 / 342.15 * 6 * 100.09 * 1000 / 100) * 0.15 = 3 := by norm_num
  rw [h1, min_eq_right (by norm_num : (3 : ℚ) ≤ 9.0),
    max_eq_left (by norm_num : (3 : ℚ) ≤ 4.0)]
  show (3 : ℚ) ≠ 4.0
  norm_num

/-- C7 (amended): for every dose ≥ 0, `add_coagulant` stores
`alkalinity' = max(0, alkalinity - consumed)` with
`consumed = (dose/342.15)*6*100.09*1000`; for dose > 0 it stores
`pH' = clamp(pH - (consumed/100)*0.15, 4, 9)`, while for dose = 0 the pH
is left unchanged (no clamping is applied); and it returns the pair of the
stored values. -/
theorem C7_postcondition (w : WaterChem) (dose : ℚ) (hd : 0 ≤ dose) :
    (add_coagulant w dose).1.alkalinity
        = max 0 (w.alkalinity - dose / 342.15 * 6 * 100.09 * 1000) ∧
    (0 < dose → (add_coagulant w dose).1.pH
        = max 4.0 (min 9.0 (w.pH + -(dose / 342.15 * 6 * 100.09 * 1000 / 100) * 0.15))) ∧
    (dose = 0 → (add_coagulant w dose).1.pH = w.pH) ∧
    (add_coagulant w dose).2
        = ((add_coagulant w dose).1.pH, (add_coagulant w dose).1.alkalinity) := by
  have key : dose / 342.15 * 6 * 100.09 * 1000 = dose * (600540 / 342.15) := by ring
  have h100 : (dose / 342.15 * 6 * 100.09 * 1000 / 100.0 : ℚ)
      = dose / 342.15 * 6 * 100.09 * 1000 / 100 := by norm_num
  refine ⟨?_, ?_, ?_, ?_⟩
  · simp only [add_coagulant]
  · intro hpos
    have hc : 0 < dose / 342.15 * 6 * 100.09 * 1000 := by
      rw [key]
      exact mul_pos hpos (by norm_num)
    rw [add_coagulant_pos_eval w dose hc]
    show max 4.0 (min 9.0 (w.pH + -(dose / 342.15 * 6 * 100.09 * 1000 / 100.0) * 0.15)) = _
    rw [h100]
  · intro h0
    rw [add_coagulant_nonpos_eval w dose (by rw [h0]; norm_num)]
  · simp only [add_coagulant]

/-- C7 witness. -/
theorem C7_witness :
    (0 : ℚ) ≤ 0.02 ∧
      ((add_coagulant ⟨7.5, 120⟩ 0.02).1.alkalinity
          = max 0 (120 - 0.02 / 342.15 * 6 * 100.09 * 1000) ∧
       (0 < (0.02 : ℚ) → (add_coagulant ⟨7.5, 120⟩ 0.02).1.pH
           = max 4.0 (min 9.0 (7.5 + -(0.02 / 342.15 * 6 * 100.09 * 1000 / 100) * 0.15))) ∧
       ((0.02 : ℚ) = 0 → (add_coagulant ⟨7.5, 120⟩ 0.02).1.pH = 7.5) ∧
       (add_coagulant ⟨7.5, 120⟩ 0.02).2
           = ((add_coagulant ⟨7.5, 120⟩ 0.02).1.pH,
              (add_coagulant ⟨7.5, 120⟩ 0.02).1.alkalinity)) :=
  ⟨by norm_num, C7_postcondition ⟨7.5, 120⟩ 0.02 (by norm_num)⟩

/-- C8 counterexample: for dose 0 nothing is clamped (the clamp lives
inside the positive-consumption branch), so a state constructed with
pH 3.5 keeps pH 3.5 < 4 after `add_coagulant`. -/
theorem C8_counterexample : (add_coagulant ⟨3.5, 100⟩ 0).1.pH < 4 := by
  rw [add_coagulant_nonpos_eval ⟨3.5, 100⟩ 0 (by norm_num)]
  show (3.5 : ℚ) < 4
  norm_num

/-- C8 (amended): for every dose (however large) the resulting alkalinity
is ≥ 0, and the resulting pH is ≥ 4 provided the initial pH is ≥ 4 (for
dose > 0 the pH is clamped into [4, 9] outright; for dose ≤ 0 it is left
unchanged, so the bound needs the initial pH). -/
theorem C8_clamping (w : WaterChem) (dose : ℚ) (h4 : 4 ≤ w.pH) :
    4 ≤ (add_coagulant w dose).1.pH ∧ 0 ≤ (add_coagulant w dose).1.alkalinity := by
  by_cases hc : 0 < dose / 342.15 * 6 * 100.09 * 1000
  · rw [add_coagulant_pos_eval w dose hc]
    exact ⟨le_trans (by norm_num) (le_max_left _ _), le_max_left _ _⟩
  · rw [add_coagulant_nonpos_eval w dose hc]
    exact ⟨h4, le_max_left _ _⟩

/-- C8 witness: an arbitrarily large dose at the baseline state. -/
theorem C8_witness :
    (4 : ℚ) ≤ 7.5 ∧
      (4 ≤ (add_coagulant ⟨7.5, 120⟩ 1000000).1.pH ∧
       0 ≤ (add_coagulant ⟨7.5, 120⟩ 1000000).1.alkalinity) :=
  ⟨by norm_num, C8_clamping ⟨7.5, 120⟩ 1000000 (by norm_num)⟩

/-- C9 counterexample to the "for any dose" mass clause: at dose `-0.5`
the charge-neutralization factor is `min(1, -10) = -10`, the size scale
factor `1 + 0.1*(-10)` is exactly 0, every scaled bin center collapses to
0, and the renormalization divides by the zero current total.  In numpy
that division produces non-finite concentrations, so the output "total
mass" is not the input total 1; in this exact embedding the zero-divisor
convention likewise yields a total of 0 ≠ 1.  Either way the output total
mass differs from the input total mass. -/
theorem C9_counterexample :
    trapz (rapid_mix_process ⟨7, 100⟩ [1, 2] [1, 1] (-0.5)).2.2
        (rapid_mix_process ⟨7, 100⟩ [1, 2] [1, 1] (-0.5)).2.1
      ≠ trapz ([1, 1] : List ℚ) [1, 2] := by
  have hfac : charge_neutralization (-0.5) = -10 := by
    simp only [charge_neutralization]
    rw [show ((-0.5 : ℚ) / 0.05) = -10 by norm_num,
      min_eq_right (by norm_num : (-10 : ℚ) ≤ 1.0)]
  simp only [rapid_mix_process, normalize, hfac, List.map_cons, List.map_nil]
  norm_num [trapz]

/-- C9 (amended): at dose 0 the rapid-mix stage leaves pH and alkalinity
unchanged (for a state with the data-model invariant `alkalinity ≥ 0`),
the charge-neutralization factor is 0 and the bin-center scale factor is
1, so the output sizes equal the input sizes; and for every dose ≥ 0 (the
scale factor is then ≥ 1, so the scaled-size total stays nonzero) the
output distribution's trapezoidal total mass equals the input's total
mass after renormalization, provided that input total is nonzero. -/
theorem C9_zero_dose (w : WaterChem) (sizes concs : List ℚ)
    (halk : 0 ≤ w.alkalinity) (hT : trapz concs sizes ≠ 0) :
    (rapid_mix_process w sizes concs 0).1 = w ∧
    charge_neutralization 0 = 0 ∧
    (rapid_mix_process w sizes concs 0).2.1 = sizes ∧
    (∀ dose : ℚ, 0 ≤ dose →
      trapz (rapid_mix_process w sizes concs dose).2.2
          (rapid_mix_process w sizes concs dose).2.1
        = trapz concs sizes) := by
  have hf0 : charge_neutralization 0 = 0 := by
    simp only [charge_neutralization]
    rw [show ((0 : ℚ) / 0.05) = 0 by norm_num, min_eq_right (by norm_num : (0 : ℚ) ≤ 1.0)]
  refine ⟨?_, hf0, ?_, ?_⟩
  · show (add_coagulant w 0).1 = w
    rw [add_coagulant_nonpos_eval w 0 (by norm_num)]
    rw [show w.alkalinity - 0 / 342.15 * 6 * 100.09 * 1000 = w.alkalinity by ring,
      max_eq_right halk]
  · show sizes.map (fun s => s * (1 + 0.1 * charge_neutralization 0)) = sizes
    rw [hf0]
    simp
  · intro dose hd
    have hfac : 0 ≤ charge_neutralization dose := by
      simp only [charge_neutralization]
      exact le_min (by norm_num) (div_nonneg hd (by norm_num))
    have hk : (0 : ℚ) < 1 + 0.1 * charge_neutralization dose := by
      have := mul_nonneg (by norm_num : (0 : ℚ) ≤ 0.1) hfac
      linarith
    simp only [rapid_mix_process, normalize]
    have hcur : trapz concs
          (sizes.map (fun s => s * (1 + 0.1 * charge_neutralization dose)))
        = trapz concs sizes * (1 + 0.1 * charge_neutralization dose) :=
      trapz_map_mul_x _ concs sizes
    simp only [hcur]
    rw [show (fun c => c * trapz concs sizes
          / (trapz concs sizes * (1 + 0.1 * charge_neutralization dose)))
        = (fun c => c * (trapz concs sizes
          / (trapz concs sizes * (1 + 0.1 * charge_neutralization dose)))) by
      funext c; ring]
    rw [trapz_map_mul, hcur]
    field_simp

/-- C9 witness. -/
theorem C9_witness :
    (0 : ℚ) ≤ 120 ∧ trapz ([1, 1] : List ℚ) [1, 2] ≠ 0 ∧
      ((rapid_mix_process ⟨7.5, 120⟩ [1, 2] [1, 1] 0).1 = ⟨7.5, 120⟩ ∧
       charge_neutralization 0 = 0 ∧
       (rapid_mix_process ⟨7.5, 120⟩ [1, 2] [1, 1] 0).2.1 = [1, 2] ∧
       (∀ dose : ℚ, 0 ≤ dose →
         trapz (rapid_mix_process ⟨7.5, 120⟩ [1, 2] [1, 1] dose).2.2
             (rapid_mix_process ⟨7.5, 120⟩ [1, 2] [1, 1] dose).2.1
           = trapz ([1, 1] : List ℚ) [1, 2])) :=
  ⟨by norm_num, by norm_num [trapz],
    C9_zero_dose ⟨7.5, 120⟩ [1, 2] [1, 1] (by norm_num) (by norm_num [trapz])⟩

theorem trapz_bounds (es : List ℝ) : ∀ (ys xs : List ℝ),
    List.Chain' (· ≤ ·) xs →
    List.Forall₂ (fun e y => 0 ≤ e ∧ e ≤ y) es ys →
    0 ≤ trapz es xs ∧ trapz es xs ≤ trapz ys xs := by
  induction es with
  | nil =>
    intro ys xs _ hf
    cases hf
    simp [trapz_nil_left]
  | cons e1 es' ih =>
    intro ys xs hx hf
    cases hf with
    | cons h1 hf' =>
      rename_i y1 ys'
      cases es' with
      | nil =>
        cases hf'
        simp [trapz_single_left]
      | cons e2 es'' =>
        cases hf' with
        | cons h2 hf'' =>
          rename_i y2 ys''
          cases xs with
          | nil => simp [trapz]
          | cons x1 xs1 =>
            cases xs1 with
            | nil => simp [trapz]
            | cons x2 xs2 =>
              have hx12 : x1 ≤ x2 := (List.chain'_cons.mp hx).1
              have hxtail : List.Chain' (· ≤ ·) (x2 :: xs2) := (List.chain'_cons.mp hx).2
              have ihs := ih (y2 :: ys'') (x2 :: xs2) hxtail (List.Forall₂.cons h2 hf'')
              have hsub : (0 : ℝ) ≤ x2 - x1 := by linarith
              have t1 : (0 : ℝ) ≤ (x2 - x1) * (e1 + e2) / 2 :=
                div_nonneg (mul_nonneg hsub (by linarith [h1.1, h2.1])) (by norm_num)
              have t2 : (x2 - x1) * (e1 + e2) / 2 ≤ (x2 - x1) * (y1 + y2) / 2 := by
                apply div_le_div_of_nonneg_right ?_ (by norm_num)
                exact mul_le_mul_of_nonneg_left (by linarith [h1.2, h2.2]) hsub
              simp only [trapz]
              exact ⟨add_nonneg t1 ihs.1, add_le_add t2 ihs.2⟩

theorem settling_velocity_nonneg (diameter density_particle density_water viscosity : ℝ)
    (hmu : 0 < viscosity) (hrho : density_water ≤ density_particle) :
    0 ≤ settling_velocity diameter density_particle density_water viscosity := by
  simp only [settling_velocity]
  split
  · exact Real.sqrt_nonneg _
  · have h1 : (0 : ℝ) ≤ 9.81 * (diameter * 1e-6) ^ 2 * (density_particle - density_water) := by
      have h2 : (0 : ℝ) ≤ (diameter * 1e-6) ^ 2 := sq_nonneg _
      nlinarith
    exact div_nonneg h1 (by linarith)

theorem hindered_settling_nonneg (vs0 concentration density_particle n : ℝ)
    (h : 0 ≤ vs0) : 0 ≤ hindered_settling vs0 concentration density_particle n := by
  simp only [hindered_settling]
  apply mul_nonneg h
  apply Real.rpow_nonneg
  have hm : min 0.6 (max 0.0 (concentration / 1e6 / density_particle)) ≤ 0.6 :=
    min_le_left _ _
  linarith

theorem effluent_forall2 (cs : List ℝ) : ∀ (rs : List ℝ),
    cs.length = rs.length → (∀ c ∈ cs, 0 ≤ c) → (∀ r ∈ rs, 0 ≤ r ∧ r ≤ 1) →
    List.Forall₂ (fun e y => 0 ≤ e ∧ e ≤ y)
      (List.zipWith (fun c r => c * (1 - r)) cs rs) cs := by
  induction cs with
  | nil => intro rs _ _ _; simp
  | cons c cs' ih =>
    intro rs hlen hc hr
    cases rs with
    | nil => simp at hlen
    | cons r rs' =>
      simp only [List.zipWith_cons_cons]
      constructor
      · have hc0 := hc c (by simp)
        have hr0 := hr r (by simp)
        refine ⟨mul_nonneg hc0 (by linarith [hr0.2]), ?_⟩
        nlinarith [mul_nonneg hc0 hr0.1]
      · exact ih rs' (by simpa using hlen)
          (fun x hx => hc x (List.mem_cons_of_mem _ hx))
          (fun x hx => hr x (List.mem_cons_of_mem _ hx))

theorem mem_map_min_bounds (height overflow_rate : ℝ)
    (hh : 0 < height) (hor : 0 < overflow_rate) (L : List ℝ) (hL : ∀ v ∈ L, 0 ≤ v) :
    ∀ r ∈ L.map (fun v => min 1.0 (v * (height / (overflow_rate / 3600)) / height)),
      0 ≤ r ∧ r ≤ 1 := by
  intro r hr
  simp only [List.mem_map] at hr
  obtain ⟨v, hv, rfl⟩ := hr
  have h0 : 0 ≤ v * (height / (overflow_rate / 3600)) / height :=
    div_nonneg
      (mul_nonneg (hL v hv) (le_of_lt (div_pos hh (div_pos hor (by norm_num))))) hh.le
  exact ⟨le_min (by norm_num) h0, le_trans (min_le_left _ _) (by norm_num)⟩

theorem vs_hindered_nonneg (density_water viscosity floc_density tc : ℝ)
    (hmu : 0 < viscosity) (hrho : density_water ≤ floc_density) (sizes : List ℝ) :
    ∀ v ∈ (sizes.map
        (fun d => settling_velocity d floc_density density_water viscosity)).map
        (fun vs => hindered_settling vs tc floc_density 4.65), 0 ≤ v := by
  intro v hv
  simp only [List.mem_map] at hv
  obtain ⟨vs, ⟨d, hd, rfl⟩, rfl⟩ := hv
  exact hindered_settling_nonneg _ _ _ _
    (settling_velocity_nonneg d floc_density density_water viscosity hmu hrho)

/-- The efficiency division of `Sedimentation.process` is not guarded:
whenever every concentration is zero, the initial trapezoidal total is 0
and the efficiency is the undefined `0/0` (`none`). -/
theorem sed_eff_none (area height overflow_rate density_water viscosity : ℝ)
    (sizes concs : List ℝ) (floc_density : ℝ) (hz : ∀ c ∈ concs, c = 0) :
    (sed_process area height overflow_rate density_water viscosity sizes concs
        floc_density).removal_efficiency = none := by
  simp only [sed_process]
  rw [if_pos (trapz_zero_left concs sizes hz)]

theorem zipWith_zero_left (cs : List ℝ) : ∀ (rs : List ℝ), (∀ c ∈ cs, c = 0) →
    ∀ y ∈ List.zipWith (fun c r => c * (1 - r)) cs rs, y = 0 := by
  induction cs with
  | nil => intro rs _ y hy; simp at hy
  | cons c cs' ih =>
    intro rs hc y hy
    cases rs with
    | nil => simp at hy
    | cons r rs' =>
      simp only [List.zipWith_cons_cons, List.mem_cons] at hy
      rcases hy with hy | hy
      · rw [hy, hc c (by simp)]
        ring
      · exact ih rs' (fun x hx => hc x (List.mem_cons_of_mem _ hx)) y hy

/-- C2 counterexample: on the all-zero concentration vector the efficiency
reported by `Sedimentation.process` is the unguarded `0/0` (`none`,
i.e. numpy's `nan`), not `some 0` — the claimed "0% rather than NaN" is
false. -/
theorem C2_counterexample :
    (sed_process 100 3 10 1000 0.001 [1, 2] [0, 0] 1200).removal_efficiency
      ≠ some 0 := by
  rw [sed_eff_none 100 3 10 1000 0.001 [1, 2] [0, 0] 1200 (by simp)]
  simp

/-- C2 (amended): an all-zero concentration vector is processed as a valid
input — `Sedimentation.process` runs to completion and returns a result
record with zero effluent concentration — but the removal-efficiency
division is not guarded: the initial total mass is 0 and the efficiency is
the undefined `0/0` (numpy `nan`, here `none`), not 0%. -/
theorem C2_zero_distribution (area height overflow_rate density_water viscosity
    floc_density : ℝ) (sizes concs : List ℝ) (hz : ∀ c ∈ concs, c = 0) :
    (sed_process area height overflow_rate density_water viscosity sizes concs
        floc_density).removal_efficiency = none ∧
    (sed_process area height overflow_rate density_water viscosity sizes concs
        floc_density).effluent_concentration = 0 := by
  refine ⟨sed_eff_none area height overflow_rate density_water viscosity
    sizes concs floc_density hz, ?_⟩
  simp only [sed_process]
  exact trapz_zero_left _ sizes (zipWith_zero_left concs _ hz)

/-- C2 witness. -/
theorem C2_witness :
    (∀ c ∈ ([0, 0, 0] : List ℝ), c = 0) ∧
      ((sed_process 50 2 5 998 0.001 [1, 2, 3] [0, 0, 0] 1200).removal_efficiency
          = none ∧
       (sed_process 50 2 5 998 0.001 [1, 2, 3] [0, 0, 0] 1200).effluent_concentration
          = 0) :=
  ⟨by simp, C2_zero_distribution 50 2 5 998 0.001 1200 [1, 2, 3] [0, 0, 0] (by simp)⟩

/-- C3 counterexample: the all-zero concentration vector satisfies every
validity condition the claim lists (non-negative concentrations, positive
sizes, positive area/height/overflow rate, floc density above water
density), yet the returned efficiency is the undefined `0/0` (`none`), so
no value in [0, 100] is reported. -/
theorem C3_counterexample :
    ¬ ∃ e, (sed_process 100 3 10 998 0.001 [2, 3] [0, 0] 1200).removal_efficiency
        = some e ∧ 0 ≤ e ∧ e ≤ 100 := by
  rintro ⟨e, he, -⟩
  rw [sed_eff_none 100 3 10 998 0.001 [2, 3] [0, 0] 1200 (by simp)] at he
  exact Option.noConfusion he

/-- C3 (amended): for every valid input — parallel lists, sizes ordered
nondecreasingly, non-negative concentrations, positive height, overflow
rate and viscosity, floc density at least the water density — with
*positive* initial total mass, `Sedimentation.process` reports an overall
removal efficiency `e` with `0 ≤ e ≤ 100`. -/
theorem C3_efficiency_bounds (area height overflow_rate density_water viscosity
    floc_density : ℝ) (sizes concs : List ℝ)
    (hlen : concs.length = sizes.length)
    (hchain : List.Chain' (· ≤ ·) sizes)
    (hconc : ∀ c ∈ concs, 0 ≤ c)
    (hh : 0 < height) (hor : 0 < overflow_rate) (hmu : 0 < viscosity)
    (hrho : density_water ≤ floc_density)
    (hI : 0 < trapz concs sizes) :
    ∃ e, (sed_process area height overflow_rate density_water viscosity sizes concs
        floc_density).removal_efficiency = some e ∧ 0 ≤ e ∧ e ≤ 100 := by
  have hrem := mem_map_min_bounds height overflow_rate hh hor
    ((sizes.map (fun d => settling_velocity d floc_density density_water viscosity)).map
      (fun vs => hindered_settling vs (trapz concs sizes) floc_density 4.65))
    (vs_hindered_nonneg density_water viscosity floc_density (trapz concs sizes)
      hmu hrho sizes)
  have hf2 := effluent_forall2 concs _ (by simp [hlen]) hconc hrem
  have hF := trapz_bounds _ concs sizes hchain hf2
  simp only [sed_process]
  rw [if_neg (ne_of_gt hI)]
  refine ⟨_, rfl, ?_, ?_⟩
  · exact mul_nonneg (div_nonneg (by linarith [hF.2]) hI.le) (by norm_num)
  · have h1 : (trapz concs sizes
        - trapz (List.zipWith (fun c r => c * (1 - r)) concs
            (((sizes.map (fun d => settling_velocity d floc_density density_water
                viscosity)).map
              (fun vs => hindered_settling vs (trapz concs sizes) floc_density 4.65)).map
              (fun v => min 1.0 (v * (height / (overflow_rate / 3600)) / height)))) sizes)
        / trapz concs sizes ≤ 1 := by
      rw [div_le_one hI]
      linarith [hF.1]
    linarith [h1]

/-- C3 witness. -/
theorem C3_witness :
    ([(1 : ℝ), 1].length = [(1 : ℝ), 2].length) ∧
      List.Chain' (· ≤ ·) [(1 : ℝ), 2] ∧ (∀ c ∈ ([1, 1] : List ℝ), 0 ≤ c) ∧
      (0 : ℝ) < 3 ∧ (0 : ℝ) < 10 ∧ (0 : ℝ) < 0.001 ∧ (1000 : ℝ) ≤ 1200 ∧
      0 < trapz ([1, 1] : List ℝ) [1, 2] ∧
      ∃ e, (sed_process 100 3 10 1000 0.001 [1, 2] [1, 1] 1200).removal_efficiency
          = some e ∧ 0 ≤ e ∧ e ≤ 100 :=
  ⟨by simp, by simp, by norm_num, by norm_num, by norm_num, by norm_num, by norm_num,
    by norm_num [trapz],
    C3_efficiency_bounds 100 3 10 1000 0.001 1200 [1, 2] [1, 1] (by simp) (by simp)
      (by norm_num) (by norm_num) (by norm_num) (by norm_num) (by norm_num)
      (by norm_num [trapz])⟩

/-- C4 counterexample: a solver that reports failure (`success = false`)
on every chamber.  `Flocculation.process` still returns the solver's
partial state after running *both* chambers, and its output is identical
to the output under the same solver marked successful — no computation
error is surfaced, no chamber index is reported, and the pipeline does not
abort. -/
theorem C4_counterexample :
    floc_process (fun _ => ⟨false, [5]⟩) 2 [1] = [5] ∧
      floc_process (fun _ => ⟨false, [5]⟩) 2 [1]
        = floc_process (fun _ => ⟨true, [5]⟩) 2 [1] :=
  ⟨rfl, rfl⟩

/-- C4 (amended): `Flocculation.process` never inspects the ODE result's
`success` flag: its output over any chamber count and any start state is
exactly the output obtained from the same solver with every failure
relabelled as success.  A non-converged integration therefore silently
contributes its partial state and processing continues to later chambers
and stages. -/
theorem C4_no_error_surfacing (solver : List ℝ → IvpResult) (k : ℕ) (n : List ℝ) :
    floc_process solver k n
      = floc_process (fun m => ⟨true, (solver m).y_final⟩) k n := by
  induction k generalizing n with
  | zero => rfl
  | succ k ih =>
    simp only [floc_process]
    exact ih _

/-- The trapezoid-weighted mass rate of the pure-aggregation right-hand
side for two bins `s1 < s2` with all mass `c` in the smallest bin: the
birth into bin 1 (`K₀₀ c²/2`) does not compensate the death from bin 0
(`K₀₀ c²`), leaving a net rate of `-(s2 - s1) K₀₀ c² / 4`. -/
theorem pb_two_bin_mass_rate (K : ℝ → ℝ → ℝ) (s1 s2 c : ℝ) :
    pb_mass_rate K (fun _ => 0) (fun j => if j = 0 then s1 else s2)
      (fun j => if j = 0 then c else 0) 2
      = -((s2 - s1) * (K (s1 * 1e-6) (s1 * 1e-6) * (c * c)) / 4) := by
  have h2 : List.range 2 = [0, 1] := rfl
  have hIco : Finset.Ico 1 2 = {1} := rfl
  simp only [pb_mass_rate, h2, List.map_cons, List.map_nil, pb_dndt,
    Finset.sum_range_zero, Finset.sum_range_succ, Finset.sum_range_zero,
    hIco, Finset.sum_singleton]
  norm_num [trapz]
  ring

theorem coagulation_kernel_pos (di dj G temperature viscosity : ℝ)
    (hdi : 0 < di) (hdj : 0 < dj) (hG : 0 ≤ G) (hT : -273.15 < temperature)
    (hmu : 0 < viscosity) :
    0 < coagulation_kernel di dj G temperature viscosity := by
  simp only [coagulation_kernel]
  have hd : 0 < di + dj := by linarith
  have hb : 0 < (2 * 1.38e-23 * (temperature + 273.15)) / (3 * viscosity) :=
    div_pos (by nlinarith) (by linarith)
  have hb2 : 0 < (2 * 1.38e-23 * (temperature + 273.15)) / (3 * viscosity)
      * ((di + dj) ^ 2) / (di * dj) :=
    div_pos (mul_pos hb (pow_pos hd 2)) (mul_pos hdi hdj)
  have ht : 0 ≤ 0.2 * Real.sqrt ((G ^ 2 * viscosity / 1000) / (viscosity / 1000))
      * (di + dj) ^ 3 :=
    mul_nonneg (mul_nonneg (by norm_num) (Real.sqrt_nonneg _)) (pow_pos hd 3).le
  linarith

/-- C1 counterexample: with the breakage rate forced to zero, the
trapezoid-weighted sum of the aggregation birth and death terms does NOT
cancel: for the two-bin distribution at sizes 1 and 2 μm with all mass in
the smallest bin (`G = 0`, `temperature = 0` °C, `viscosity = 1`), the
mass rate equals `-K(1e-6, 1e-6)/4`, which is strictly negative since the
Brownian kernel is positive — so it is nonzero. -/
theorem C1_counterexample :
    pb_mass_rate (fun di dj => coagulation_kernel di dj 0 0 1) (fun _ => 0)
      (fun j => if j = 0 then 1 else 2) (fun j => if j = 0 then 1 else 0) 2 ≠ 0 := by
  rw [pb_two_bin_mass_rate]
  have hK := coagulation_kernel_pos (1 * 1e-6) (1 * 1e-6) 0 0 1
    (by norm_num) (by norm_num) (by norm_num) (by norm_num) (by norm_num)
  intro h
  nlinarith [hK]

/-- C1 (amended): total trapezoidal mass is not conserved by the
pure-aggregation population-balance right-hand side: for every two-bin
grid `0 < s1 < s2` with all mass `c > 0` in the smallest bin (and any
admissible `G ≥ 0`, temperature above absolute zero, positive viscosity),
the trapezoid-weighted sum of the aggregation birth and death terms is
strictly negative, `-(s2-s1)·K(s1·1e-6, s1·1e-6)·c²/4`. -/
theorem C1_mass_not_conserved (s1 s2 c G temperature viscosity : ℝ)
    (h1 : 0 < s1) (h12 : s1 < s2) (hc : 0 < c) (hG : 0 ≤ G)
    (hT : -273.15 < temperature) (hmu : 0 < viscosity) :
    pb_mass_rate (fun di dj => coagulation_kernel di dj G temperature viscosity)
      (fun _ => 0) (fun j => if j = 0 then s1 else s2)
      (fun j => if j = 0 then c else 0) 2 < 0 := by
  rw [pb_two_bin_mass_rate]
  have hK := coagulation_kernel_pos (s1 * 1e-6) (s1 * 1e-6) G temperature viscosity
    (by linarith) (by linarith) hG hT hmu
  have hpos : 0 < (s2 - s1)
      * (coagulation_kernel (s1 * 1e-6) (s1 * 1e-6) G temperature viscosity * (c * c)) / 4 :=
    div_pos (mul_pos (by linarith) (mul_pos hK (mul_pos hc hc))) (by norm_num)
  linarith

/-- C1 witness. -/
theorem C1_witness :
    (0 : ℝ) < 1 ∧ (1 : ℝ) < 2 ∧ (0 : ℝ) < 3 ∧ (0 : ℝ) ≤ 50 ∧
      (-273.15 : ℝ) < 20 ∧ (0 : ℝ) < 0.001 ∧
      pb_mass_rate (fun di dj => coagulation_kernel di dj 50 20 0.001) (fun _ => 0)
        (fun j => if j = 0 then 1 else 2) (fun j => if j = 0 then 3 else 0) 2 < 0 :=
  ⟨by norm_num, by norm_num, by norm_num, by norm_num, by norm_num, by norm_num,
    C1_mass_not_conserved 1 2 3 50 20 0.001 (by norm_num) (by norm_num) (by norm_num)
      (by norm_num) (by norm_num) (by norm_num)⟩

end WaterSim
